import Mathlib

/-!
Verification of the gphotos-cdp traversal-and-synchronization engine.

This file gives a shallow embedding of the core components of the
gphotos-cdp program (main.go, plus the earlier navigation variant whose
Navigator uses exponential backoff) and proves properties of that
embedding.  Time is modelled discretely: for the download watcher one
unit is one polling tick (500 ms), for the navigator one unit is one
millisecond.  Filesystem directory listings are modelled as lists of
`FileInfo` records, and the evolving directory contents seen by a
polling loop as a function from tick number to listing.
-/

/-- Directory entry as returned by ioutil.ReadDir: a name, a size and
whether the entry is a directory. -/
structure FileInfo where
  name : String
  size : Nat
  isDir : Bool
deriving DecidableEq, Repr

/-- Error outcomes of Session.download in main.go, one constructor per
distinct error produced by the wait loop: the start deadline expiring
before any file appears, the progress deadline expiring after the
download started, and the fatal more-than-one-file condition. -/
inductive DlErr
  | tookTooLongToStart
  | hitDeadline
  | tooManyFiles
deriving DecidableEq, Repr

/-- The entry filter of Session.download (main.go): directories and the
sentinel files ".lastdone" and ".lastdone.bak" are not download
artifacts. -/
def filterEntries (entries : List FileInfo) : List FileInfo :=
  entries.filter fun v => !v.isDir && v.name != ".lastdone" && v.name != ".lastdone.bak"

/-- Mutable state of the wait loop of Session.download: whether a file
has appeared yet, the largest observed size, and the current deadline
(a tick number). -/
structure DlState where
  started : Bool
  fileSize : Nat
  deadline : Nat
deriving DecidableEq, Repr

/-- One minute expressed in 500 ms polling ticks. -/
def oneMinute : Nat := 120

/-- The wait loop of Session.download (main.go).  Each iteration sleeps
one tick, checks the two deadlines (start / progress), lists the
download directory, errors out fatally if more than one non-sentinel
file is present, marks the download as started when a file appears,
pushes the deadline back while the file grows, and finishes when the
single file no longer carries the ".crdownload" marker.  `trace t` is
the directory listing observed at tick `t`; the result is `.ok none`
when the fuel runs out with the download still in progress. -/
def downloadLoop (trace : Nat → List FileInfo) :
    Nat → Nat → DlState → Except DlErr (Option String)
  | 0, _, _ => .ok none
  | fuel + 1, t, st =>
    if st.started = false ∧ st.deadline < t + 1 then .error .tookTooLongToStart
    else if st.started = true ∧ st.deadline < t + 1 then .error .hitDeadline
    else
      match filterEntries (trace (t + 1)) with
      | [] => downloadLoop trace fuel (t + 1) st
      | [f] =>
        let st1 := if st.started = false then
          { st with started := true, deadline := t + 1 + oneMinute } else st
        let st2 := if st1.fileSize < f.size then
          { st1 with deadline := t + 1 + oneMinute, fileSize := f.size } else st1
        if (".crdownload".data.isSuffixOf f.name.data) = false then .ok (some f.name)
        else downloadLoop trace fuel (t + 1) st2
      | _ :: _ :: _ => .error .tooManyFiles

/-- Session.download's wait loop started from its initial state: not
started, no observed size, start deadline one minute from now. -/
def downloadRun (trace : Nat → List FileInfo) (fuel : Nat) : Except DlErr (Option String) :=
  downloadLoop trace fuel 0 ⟨false, 0, oneMinute⟩

/-- Session.cleanDlDir (main.go): walk the directory entries, keep
directories and the entry named ".lastdone", remove every other entry.
Returns the pair (entries kept, entries removed). -/
def cleanDlDir : List FileInfo → List FileInfo × List FileInfo
  | [] => ([], [])
  | v :: rest =>
    let r := cleanDlDir rest
    if v.isDir = true then (v :: r.1, r.2)
    else if v.name = ".lastdone" then (v :: r.1, r.2)
    else (r.1, v :: r.2)

/-- The two files markDone touches inside the download dir: the
".lastdone" sentinel and its ".lastdone.bak" sibling.  `none` means the
path does not exist. -/
structure FS where
  lastdone : Option String
  bak : Option String
deriving DecidableEq, Repr

/-- Return value of markDone: nil, or the error from the failed
WriteFile call. -/
inductive MdResult
  | ok
  | writeError
deriving DecidableEq, Repr

/-- markDone (main.go): rename ".lastdone" to ".lastdone.bak" (a
not-exist failure is ignored), then write the new location; if the
write fails, rename the backup back into place (again ignoring
not-exist) and return the write error.  The injected fault `writeFails`
stands for the WriteFile call failing. -/
def markDone (fs : FS) (location : String) (writeFails : Bool) : FS × MdResult :=
  let fs1 : FS :=
    match fs.lastdone with
    | some v => { lastdone := none, bak := some v }
    | none => fs
  if writeFails then
    let fs2 : FS :=
      match fs1.bak with
      | some w => { lastdone := some w, bak := none }
      | none => fs1
    (fs2, .writeError)
  else
    ({ fs1 with lastdone := some location }, .ok)

/-- Observable side effects of one item's processing, in program order:
the wait loop of Session.download verifying the download complete (the
loop break), markDone writing the sentinel, and moveDownload renaming
the artifact into its per-item directory. -/
inductive Ev
  | downloaded (location : String)
  | sentinel (location : String)
  | moved (location : String)
deriving DecidableEq, Repr

/-- Effects of Session.download (main.go) on its success path: the wait
loop verifies completion, then markDone persists the location. -/
def downloadEvents (location : String) : List Ev :=
  [.downloaded location, .sentinel location]

/-- Effects of Session.moveDownload (main.go) on its success path: the
artifact is renamed into the per-item directory. -/
def moveDownloadEvents (location : String) : List Ev :=
  [.moved location]

/-- Effects of Session.dlAndMove (main.go): download (which ends with
markDone), then moveDownload. -/
def dlAndMoveEvents (location : String) : List Ev :=
  downloadEvents location ++ moveDownloadEvents location

/-- Effects of the iteration loop of Session.navN (main.go) on the
success path, for the successive cursor positions `feed` it processes:
each iteration runs dlAndMove on the current location. -/
def navNEvents (feed : List String) : List Ev :=
  feed.flatMap dlAndMoveEvents

/-- Formalization of the claim that the sentinel is created or updated
only after the artifact has been relocated: within one item's
dlAndMove effects, the relocation would have to come first. -/
def sentinelAfterRelocation (location : String) : Prop :=
  List.indexOf (Ev.moved location) (dlAndMoveEvents location)
    < List.indexOf (Ev.sentinel location) (dlAndMoveEvents location)

/-- Adjacent entries of the list are pairwise distinct: the page never
reports the same location for two consecutive feed items. -/
def adjacentNe : List String → Bool
  | [] => true
  | [_] => true
  | a :: b :: rest => a != b && adjacentNe (b :: rest)

/-- The feed slice is anchored at its end: only its last entry carries
the boundary anchor (s.firstItem) as a URL suffix.  This is how navN
recognizes the newest item of the feed. -/
def anchoredAtEnd (firstItem : String) : List String → Bool
  | [] => false
  | [x] => firstItem.data.isSuffixOf x.data
  | x :: y :: rest => !(firstItem.data.isSuffixOf x.data) && anchoredAtEnd firstItem (y :: rest)

/-- The iteration loop of Session.navN (main.go), success path of
download and post-processing.  `prevLocation`/`n` are the loop
variables, `location` the current cursor position, `rest` the feed
items to the left (newer) of the cursor.  Each iteration: stop if the
cursor did not move; download the current item; stop after N items
when N is positive; stop when the current location carries the
s.firstItem suffix (boundary anchor); otherwise navigate left.  navLeft
in main.go fails with a timeout error when no navigation happens
within a minute, which is what happens at the end of the feed, so an
exhausted `rest` yields that error.  Returns the locations downloaded,
in order. -/
def navNGo (N : Int) (firstItem : String) :
    String → Nat → String → List String → Except String (List String)
  | prevLocation, n, location, rest =>
    if location = prevLocation then .ok []
    else if 0 < N ∧ N ≤ (n : Int) + 1 then .ok [location]
    else if (firstItem.data.isSuffixOf location.data) = true then .ok [location]
    else
      match rest with
      | [] => .error ("error at " ++ location ++ ": timeout waiting for left navigation")
      | next :: rest2 => (navNGo N firstItem location (n + 1) next rest2).map (location :: ·)

/-- Session.navN (main.go) started at cursor position `location` with
`rest` the items to its left: zero requested items is a no-op,
otherwise the loop starts with an empty prevLocation and n = 0. -/
def navN (N : Int) (firstItem : String) (location : String) (rest : List String) :
    Except String (List String) :=
  if N = 0 then .ok [] else navNGo N firstItem "" 0 location rest

/-- Formalization of the resumability claim as stated: a restarted run
(which starts at the sentinel location, with `newer` the items to its
left) never downloads the sentinel item again. -/
def neverRedownloads (N : Int) (firstItem lastDone : String) (newer : List String) : Prop :=
  ∀ L, navN N firstItem lastDone newer = .ok L → lastDone ∉ L

namespace p0

/-- Backoff cap of navLeft in the exponential-backoff variant: 500 ms. -/
def maxBackoff : Nat := 500

/-- Hard waiting ceiling of navLeft in the exponential-backoff variant:
5 minutes, in milliseconds. -/
def navDeadline : Nat := 300000

/-- How navLeft in the exponential-backoff variant returned: the cursor
moved, or the 5-minute ceiling elapsed with the cursor unchanged (the
loop breaks and the function returns nil in both cases), or the model
ran out of fuel. -/
inductive NavOutcome
  | moved
  | deadlineExhausted
  | fuelOut
deriving DecidableEq, Repr

/-- Backoff update of navLeft: while below the cap, double and clamp to
the cap. -/
def nextBackoff (backoff : Nat) : Nat :=
  if backoff < maxBackoff then min (backoff * 2) maxBackoff else backoff

/-- Polling loop of navLeft in the exponential-backoff variant.  `trace
t` is the result of reading the page location at time `t` (an error
models a driver failure, which navLeft propagates).  Each iteration
reads the location, stops successfully if it differs from
prevLocation, breaks (returning nil, not an error) once the 5-minute
deadline has passed, and otherwise sleeps for the current backoff and
doubles it up to the cap. -/
def navLeftGo (trace : Nat → Except String String) (prevLocation : String) :
    Nat → Nat → Nat → Except String NavOutcome
  | 0, _, _ => .ok .fuelOut
  | fuel + 1, now, backoff =>
    match trace now with
    | .error e => .error e
    | .ok location =>
      if location ≠ prevLocation then .ok .moved
      else if navDeadline < now then .ok .deadlineExhausted
      else navLeftGo trace prevLocation fuel (now + backoff) (nextBackoff backoff)

/-- navLeft of the exponential-backoff variant: polling starts at time
zero with a 10 ms backoff.  The fuel is large enough that the 5-minute
deadline always fires first. -/
def navLeft (trace : Nat → Except String String) (prevLocation : String) :
    Except String NavOutcome :=
  navLeftGo trace prevLocation 40000 0 10

/-- Sequence of sleep intervals used by navLeft's polling loop: the
first sleep is 10 ms and each subsequent one is obtained by
nextBackoff. -/
def backoffSeq : Nat → Nat
  | 0 => 10
  | n + 1 => nextBackoff (backoffSeq n)

/-- Refresh batch size of navN in the exponential-backoff variant:
the page is reloaded every 1000 processed items. -/
def batchSize : Nat := 1000

/-- Iteration loop of navN in the exponential-backoff variant (success
path of download and post-processing, list mode off).  Structure as in
the main.go loop, except that there is no boundary-anchor check, and
after navLeft returns the page is reloaded whenever the item count is
a multiple of 1000.  At the end of the feed navLeft's ceiling expires
with the cursor unchanged and navLeft returns nil, so the reload check
still runs and the loop then stalls out on the next location read.
Returns the downloaded locations and the item counts at which the page
was reloaded. -/
def navNGo (N : Int) :
    String → Nat → String → List String → List String × List Nat
  | prevLocation, n, location, rest =>
    if location = prevLocation then ([], [])
    else if 0 < N ∧ N ≤ (n : Int) + 1 then ([location], [])
    else
      let reloads : List Nat := if (n + 1) % batchSize = 0 then [n + 1] else []
      match rest with
      | [] => ([location], reloads)
      | next :: rest2 =>
        let r := navNGo N location (n + 1) next rest2
        (location :: r.1, reloads ++ r.2)

/-- navN of the exponential-backoff variant, started at cursor position
`location` with `rest` the items to its left. -/
def navN (N : Int) (location : String) (rest : List String) :
    List String × List Nat :=
  if N = 0 then ([], []) else navNGo N "" 0 location rest

end p0

/-! Helper lemmas. -/

/-- The entries cleanDlDir keeps are exactly the directories and the
entry named ".lastdone", in their original order. -/
theorem cleanDlDir_kept (entries : List FileInfo) :
    (cleanDlDir entries).1 = entries.filter (fun v => v.isDir || v.name == ".lastdone") := by
  induction entries with
  | nil => rfl
  | cons v rest ih =>
    by_cases hd : v.isDir = true
    · simp [cleanDlDir, hd, List.filter, ih]
    · by_cases hn : v.name = ".lastdone"
      · simp [cleanDlDir, hd, hn, List.filter, ih]
      · simp [cleanDlDir, hd, hn, List.filter, ih,
          show (v.name == ".lastdone") = false from beq_eq_false_iff_ne.mpr hn]

/-- The entries cleanDlDir removes are exactly the non-directory
entries not named ".lastdone", in their original order. -/
theorem cleanDlDir_removed (entries : List FileInfo) :
    (cleanDlDir entries).2 = entries.filter (fun v => !v.isDir && v.name != ".lastdone") := by
  induction entries with
  | nil => rfl
  | cons v rest ih =>
    by_cases hd : v.isDir = true
    · simp [cleanDlDir, hd, List.filter, ih]
    · by_cases hn : v.name = ".lastdone"
      · simp [cleanDlDir, hd, hn, List.filter, ih]
      · simp [cleanDlDir, hd, hn, List.filter, ih,
          show (v.name != ".lastdone") = true from bne_iff_ne.mpr hn]

/-! Claim theorems. -/

/-- C10: at session startup, cleanDlDir removes every regular
(non-directory) file in the download root except the one named
".lastdone" — including ".lastdone.bak" and any leftover partial
download — while leaving every subdirectory unchanged. -/
theorem c10_cleanDlDir_removes_files_keeps_dirs (entries : List FileInfo) :
    (cleanDlDir entries).1 = entries.filter (fun v => v.isDir || v.name == ".lastdone")
    ∧ (∀ v ∈ entries, v.isDir = false → v.name ≠ ".lastdone" →
        v ∈ (cleanDlDir entries).2 ∧ v ∉ (cleanDlDir entries).1)
    ∧ (∀ v ∈ entries, v.isDir = true →
        v ∈ (cleanDlDir entries).1 ∧ v ∉ (cleanDlDir entries).2) := by
  refine ⟨cleanDlDir_kept entries, ?_, ?_⟩
  · intro v hv hd hn
    constructor
    · rw [cleanDlDir_removed]
      simp only [List.mem_filter, Bool.and_eq_true, Bool.not_eq_true']
      exact ⟨hv, by simp [hd, hn]⟩
    · rw [cleanDlDir_kept]
      simp only [List.mem_filter, Bool.or_eq_true]
      rintro ⟨-, h | h⟩
      · rw [hd] at h; cases h
      · rw [beq_iff_eq] at h; exact hn h
  · intro v hv hd
    constructor
    · rw [cleanDlDir_kept]
      exact List.mem_filter.mpr ⟨hv, by simp [hd]⟩
    · rw [cleanDlDir_removed]
      simp only [List.mem_filter, Bool.and_eq_true, Bool.not_eq_true']
      rintro ⟨-, h, -⟩
      rw [hd] at h; cases h

/-- Witness for C10 on a concrete listing: the ".lastdone.bak" backup
and a leftover partial download are removed, a per-item subdirectory
is kept. -/
theorem c10_witness :
    FileInfo.mk ".lastdone.bak" 2 false ∈
      (cleanDlDir [⟨".lastdone", 3, false⟩, ⟨".lastdone.bak", 2, false⟩,
        ⟨"AF1QipM", 0, true⟩, ⟨"x.jpg.crdownload", 5, false⟩]).2
    ∧ FileInfo.mk "AF1QipM" 0 true ∈
      (cleanDlDir [⟨".lastdone", 3, false⟩, ⟨".lastdone.bak", 2, false⟩,
        ⟨"AF1QipM", 0, true⟩, ⟨"x.jpg.crdownload", 5, false⟩]).1 := by
  refine ⟨?_, ?_⟩
  · exact ((c10_cleanDlDir_removes_files_keeps_dirs _).2.1 _ (by decide) rfl (by decide)).1
  · exact ((c10_cleanDlDir_removes_files_keeps_dirs _).2.2 _ (by decide) rfl).1

/-- C3: markDone first preserves the previous sentinel value by
renaming it to the backup, then writes the new value; when the write
fails the backup is restored (the previous sentinel value is again in
place) and the write error is returned.  The hypothesis `hclean`
records a program invariant: cleanDlDir deletes ".lastdone.bak" at
startup, so a run never sees a backup file without a sentinel file. -/
theorem c3_markDone_crash_safe (fs : FS) (location : String) (writeFails : Bool)
    (hclean : fs.lastdone = none → fs.bak = none) :
    (markDone fs location writeFails).2
        = (if writeFails then MdResult.writeError else MdResult.ok)
    ∧ (markDone fs location true).1.lastdone = fs.lastdone
    ∧ (markDone fs location false).1.lastdone = some location
    ∧ (∀ v, fs.lastdone = some v → (markDone fs location false).1.bak = some v) := by
  obtain ⟨ld, bk⟩ := fs
  cases ld with
  | some v => cases writeFails <;> simp [markDone]
  | none =>
    have hbk : bk = none := hclean rfl
    subst hbk
    cases writeFails <;> simp [markDone]

/-- Witness for C3 at a concrete state: a failed write leaves the
previous sentinel value in place and reports the write error. -/
theorem c3_witness :
    (markDone ⟨some "https://photos.google.com/photo/p1", none⟩
        "https://photos.google.com/photo/p2" true).2 = MdResult.writeError
    ∧ (markDone ⟨some "https://photos.google.com/photo/p1", none⟩
        "https://photos.google.com/photo/p2" true).1.lastdone
        = some "https://photos.google.com/photo/p1" := by
  have h := c3_markDone_crash_safe ⟨some "https://photos.google.com/photo/p1", none⟩
    "https://photos.google.com/photo/p2" true (by intro h; cases h)
  exact ⟨h.1, h.2.1⟩

/-- C4: whenever the wait loop of Session.download lists the staging
directory (the deadline checks of this iteration having passed) and
two or more non-sentinel regular files are present, it returns the
invariant-violation error immediately, whatever the iteration,
remaining fuel or loop state. -/
theorem c4_multiple_staged_files_fatal (trace : Nat → List FileInfo) (fuel t : Nat)
    (st : DlState) (hdl : ¬ st.deadline < t + 1)
    (hmulti : 2 ≤ (filterEntries (trace (t + 1))).length) :
    downloadLoop trace (fuel + 1) t st = .error .tooManyFiles := by
  obtain ⟨a, b, l, he⟩ : ∃ a b l, filterEntries (trace (t + 1)) = a :: b :: l := by
    match h : filterEntries (trace (t + 1)) with
    | [] => rw [h] at hmulti; simp at hmulti
    | [x] => rw [h] at hmulti; simp at hmulti
    | a :: b :: l => exact ⟨a, b, l, rfl⟩
  rw [downloadLoop, he]
  rw [if_neg (fun h => hdl h.2), if_neg (fun h => hdl h.2)]

/-- Witness for C4: a concrete second-tick listing with two regular
files makes the watcher fail fatally at once. -/
theorem c4_witness :
    downloadLoop (fun _ => [⟨"a.jpg", 1, false⟩, ⟨"b.jpg", 2, false⟩]) 1 0
      ⟨false, 0, oneMinute⟩ = .error .tooManyFiles :=
  c4_multiple_staged_files_fatal _ 0 0 _ (by decide) (by decide)

/-- A step-monotone size function is monotone. -/
theorem sizeMono (size : Nat → Nat) (hm : ∀ u, size u ≤ size (u + 1)) :
    ∀ u v, u ≤ v → size u ≤ size v := by
  intro u v huv
  induction v with
  | zero => cases Nat.le_zero.mp huv; exact Nat.le_refl _
  | succ w ih =>
    rcases Nat.lt_or_ge u (w + 1) with h | h
    · exact Nat.le_trans (ih (Nat.lt_succ_iff.mp h)) (hm w)
    · cases Nat.le_antisymm huv h; exact Nat.le_refl _

/-- A singleton listing of a regular file not named like the sentinel
files passes Session.download's entry filter unchanged. -/
theorem filterEntries_single (nm : String) (s : Nat)
    (hn1 : nm ≠ ".lastdone") (hn2 : nm ≠ ".lastdone.bak") :
    filterEntries [⟨nm, s, false⟩] = [⟨nm, s, false⟩] := by
  simp [filterEntries, List.filter, bne_iff_ne.mpr hn1, bne_iff_ne.mpr hn2]

/-- Progress-deadline extension: while a single in-progress file grows
at least once per minute (and monotonically), the wait loop of
Session.download never times out.  `g` is the tick of the last
observed strict growth, and the loop state records exactly the size
seen at tick `t` and the deadline one minute after `g`. -/
theorem downloadLoop_growth_aux (size : Nat → Nat) (nm : String)
    (hsuf : (".crdownload".data.isSuffixOf nm.data) = true)
    (hn1 : nm ≠ ".lastdone") (hn2 : nm ≠ ".lastdone.bak")
    (hmono : ∀ u, size u ≤ size (u + 1))
    (hwin : ∀ u, size u < size (u + oneMinute)) :
    ∀ fuel t g, 1 ≤ g → g ≤ t → size g = size t →
      downloadLoop (fun u => [⟨nm, size u, false⟩]) fuel t ⟨true, size t, g + oneMinute⟩
        = .ok none := by
  intro fuel
  induction fuel with
  | zero => intro t g _ _ _; rfl
  | succ k ih =>
    intro t g hg1 hgt hsz
    have hdl : ¬ (g + oneMinute < t + 1) := by
      intro hlt
      have h1 : g + oneMinute ≤ t := by omega
      have h2 : size (g + oneMinute) ≤ size t := sizeMono size hmono _ _ h1
      have h3 : size g < size (g + oneMinute) := hwin g
      omega
    rw [downloadLoop]
    rw [if_neg (by simp), if_neg (fun h => hdl h.2)]
    simp only [filterEntries_single nm (size (t + 1)) hn1 hn2]
    have hns : ¬ ((".crdownload".data.isSuffixOf nm.data) = false) := by
      rw [hsuf]; simp
    simp only [if_neg (show ¬ (true = false) from by simp)]
    rw [if_neg hns]
    by_cases hgrow : size t < size (t + 1)
    · rw [if_pos hgrow]
      exact ih (t + 1) (t + 1) (by omega) (Nat.le_refl _) rfl
    · have heq : size t = size (t + 1) := Nat.le_antisymm (hmono t) (Nat.le_of_not_lt hgrow)
      rw [if_neg hgrow]
      have := ih (t + 1) g hg1 (by omega) (by omega)
      rw [heq]
      exact this

/-- Stalled download: once started, if the staged file never grows past
the recorded size (and keeps its in-progress marker), the wait loop
reports the progress-deadline error as soon as the deadline passes. -/
theorem downloadLoop_stall_aux (trace : Nat → List FileInfo) :
    ∀ (fuel t : Nat) (st : DlState), st.started = true →
      (∀ u, t < u → ∃ f, filterEntries (trace u) = [f] ∧ f.size ≤ st.fileSize ∧
        (".crdownload".data.isSuffixOf f.name.data) = true) →
      st.deadline < t + fuel → 1 ≤ fuel →
      downloadLoop trace fuel t st = .error .hitDeadline := by
  intro fuel
  induction fuel with
  | zero => intro t st _ _ _ h1; omega
  | succ k ih =>
    intro t st hst hobs hfuel _
    rw [downloadLoop]
    by_cases hdl : st.deadline < t + 1
    · rw [if_neg (by simp [hst]), if_pos ⟨hst, hdl⟩]
    · obtain ⟨f, hf, hsize, hsuf⟩ := hobs (t + 1) (by omega)
      rw [if_neg (by simp [hst]), if_neg (fun h => hdl h.2), hf]
      have hns : ¬ ((".crdownload".data.isSuffixOf f.name.data) = false) := by
        rw [hsuf]; simp
      simp only [if_neg (show ¬ (st.started = false) from by simp [hst])]
      rw [if_neg (Nat.not_lt.mpr hsize), if_neg hns]
      exact ih (t + 1) st hst (fun u hu => hobs u (by omega)) (by omega) (by omega)

/-- Failed start: while the staging directory stays empty of
non-sentinel files, the wait loop reports the start-deadline error as
soon as that deadline passes. -/
theorem downloadLoop_nostart_aux (trace : Nat → List FileInfo)
    (hempty : ∀ u, filterEntries (trace u) = []) :
    ∀ (fuel t : Nat) (st : DlState), st.started = false →
      st.deadline < t + fuel → 1 ≤ fuel →
      downloadLoop trace fuel t st = .error .tookTooLongToStart := by
  intro fuel
  induction fuel with
  | zero => intro t st _ h1 h2; omega
  | succ k ih =>
    intro t st hst hfuel _
    rw [downloadLoop]
    by_cases hdl : st.deadline < t + 1
    · rw [if_pos ⟨hst, hdl⟩]
    · rw [if_neg (fun h => hdl h.2), if_neg (fun h => hdl h.2), hempty (t + 1)]
      exact ih (t + 1) st hst (by omega) (by omega)

/-- C5: each strict size increase of the staged file resets the
progress deadline, so a single in-progress file that grows by at least
one byte within every one-minute progress window never makes the
watcher time out; a file that stops growing for longer than the
progress window makes it fail with the progress-deadline ("stalled")
error; the staging directory staying empty past the start window
yields the start-deadline error; and those two timeout kinds are
distinct. -/
theorem c5_deadline_extension_and_kinds :
    (∀ (size : Nat → Nat) (nm : String),
      (".crdownload".data.isSuffixOf nm.data) = true →
      nm ≠ ".lastdone" → nm ≠ ".lastdone.bak" →
      (∀ u, size u ≤ size (u + 1)) →
      (∀ u, size u < size (u + oneMinute)) →
      ∀ fuel, downloadRun (fun u => [⟨nm, size u, false⟩]) fuel = .ok none)
    ∧ (∀ (trace : Nat → List FileInfo) (fuel t : Nat) (st : DlState),
      st.started = true →
      (∀ u, t < u → ∃ f, filterEntries (trace u) = [f] ∧ f.size ≤ st.fileSize ∧
        (".crdownload".data.isSuffixOf f.name.data) = true) →
      st.deadline < t + fuel → 1 ≤ fuel →
      downloadLoop trace fuel t st = .error .hitDeadline)
    ∧ (∀ (trace : Nat → List FileInfo) (fuel : Nat),
      (∀ u, filterEntries (trace u) = []) → oneMinute < fuel →
      downloadRun trace fuel = .error .tookTooLongToStart)
    ∧ DlErr.hitDeadline ≠ DlErr.tookTooLongToStart := by
  refine ⟨?_, downloadLoop_stall_aux, ?_, by simp⟩
  · intro size nm hsuf hn1 hn2 hmono hwin fuel
    cases fuel with
    | zero => rfl
    | succ k =>
      rw [downloadRun, downloadLoop]
      rw [if_neg (by simp [oneMinute]), if_neg (by simp)]
      simp only [filterEntries_single nm (size 1) hn1 hn2]
      rw [show (List.isSuffixOf ['.', 'c', 'r', 'd', 'o', 'w', 'n', 'l', 'o', 'a', 'd'] nm.data)
        = true from hsuf]
      simp only [if_true, show ((true = false) = False) from by simp, if_false]
      by_cases hgrow : (0 : Nat) < size 1
      · rw [if_pos hgrow]
        exact downloadLoop_growth_aux size nm hsuf hn1 hn2 hmono hwin k 1 1
          (Nat.le_refl _) (Nat.le_refl _) rfl
      · have h0 : size 1 = 0 := Nat.eq_zero_of_not_pos hgrow
        rw [if_neg hgrow]
        have := downloadLoop_growth_aux size nm hsuf hn1 hn2 hmono hwin k 1 1
          (Nat.le_refl _) (Nat.le_refl _) rfl
        rw [h0] at this
        exact this
  · intro trace fuel hempty hfuel
    exact downloadLoop_nostart_aux trace hempty fuel 0 _ rfl
      (by show oneMinute < 0 + fuel; omega) (by omega)

/-- Witness for C5: a file growing every tick completes no timeout in
three ticks; a constant-size in-progress file hits the stalled error;
an empty staging directory hits the failed-to-start error; the two
kinds differ. -/
theorem c5_witness :
    downloadRun (fun u => [⟨"x.jpg.crdownload", u, false⟩]) 3 = .ok none
    ∧ downloadLoop (fun _ => [⟨"f.crdownload", 7, false⟩]) 6 5 ⟨true, 7, 10⟩
        = .error .hitDeadline
    ∧ downloadRun (fun _ => []) 121 = .error .tookTooLongToStart
    ∧ DlErr.hitDeadline ≠ DlErr.tookTooLongToStart := by
  refine ⟨?_, ?_, ?_, ?_⟩
  · exact c5_deadline_extension_and_kinds.1 (fun u => u) "x.jpg.crdownload"
      (by decide) (by decide) (by decide) (fun u => Nat.le_succ u)
      (fun u => Nat.lt_add_of_pos_right (by decide)) 3
  · exact c5_deadline_extension_and_kinds.2.1 _ 6 5 ⟨true, 7, 10⟩ rfl
      (fun u _ => ⟨⟨"f.crdownload", 7, false⟩, rfl, Nat.le_refl _, by decide⟩)
      (by decide) (by decide)
  · exact c5_deadline_extension_and_kinds.2.2.1 _ 121 (fun u => rfl) (by decide)
  · exact c5_deadline_extension_and_kinds.2.2.2

/-- The backoff update never drops below the initial 10 ms. -/
theorem nextBackoff_ge (b : Nat) (hb : 10 ≤ b) : 10 ≤ p0.nextBackoff b := by
  unfold p0.nextBackoff
  split
  · exact Nat.le_min.mpr ⟨by omega, by decide⟩
  · exact hb

/-- While the location read keeps returning prevLocation, the polling
loop of navLeft reaches the 5-minute ceiling and returns the
no-error deadline outcome.  The arithmetic hypotheses say that the
deadline has not passed yet and that the fuel suffices even if every
sleep were the minimal 10 ms. -/
theorem navLeftGo_deadline_aux (trace : Nat → Except String String) (prev : String)
    (hc : ∀ t, trace t = .ok prev) :
    ∀ (fuel now backoff : Nat), 10 ≤ backoff → now ≤ p0.navDeadline →
      p0.navDeadline + 11 ≤ now + 10 * fuel →
      p0.navLeftGo trace prev fuel now backoff = .ok .deadlineExhausted := by
  intro fuel
  induction fuel with
  | zero => intro now backoff _ h1 h2; omega
  | succ k ih =>
    intro now backoff hb hnow hfuel
    rw [p0.navLeftGo, hc now]
    show (if prev ≠ prev then Except.ok p0.NavOutcome.moved
      else if p0.navDeadline < now then Except.ok p0.NavOutcome.deadlineExhausted
      else p0.navLeftGo trace prev k (now + backoff) (p0.nextBackoff backoff))
      = Except.ok p0.NavOutcome.deadlineExhausted
    rw [if_neg (show ¬ (prev ≠ prev) from by simp), if_neg (Nat.not_lt.mpr hnow)]
    by_cases h2 : now + backoff ≤ p0.navDeadline
    · exact ih (now + backoff) (p0.nextBackoff backoff) (nextBackoff_ge backoff hb) h2
        (by omega)
    · cases k with
      | zero => exact absurd hfuel (by omega)
      | succ j =>
        rw [p0.navLeftGo, hc (now + backoff)]
        show (if prev ≠ prev then Except.ok p0.NavOutcome.moved
          else if p0.navDeadline < now + backoff then Except.ok p0.NavOutcome.deadlineExhausted
          else p0.navLeftGo trace prev j (now + backoff + p0.nextBackoff backoff)
            (p0.nextBackoff (p0.nextBackoff backoff)))
          = Except.ok p0.NavOutcome.deadlineExhausted
        rw [if_neg (show ¬ (prev ≠ prev) from by simp), if_pos (Nat.not_le.mp h2)]

/-- C6: when the hard 5-minute ceiling of navLeft (exponential-backoff
variant) elapses without the cursor ever changing, navLeft returns
without error: the deadline branch breaks out of the loop and the
function returns nil, leaving the caller's stall detection to
terminate the traversal. -/
theorem c6_ceiling_expiry_is_termination (trace : Nat → Except String String)
    (prevLocation : String) (hc : ∀ t, trace t = .ok prevLocation) :
    p0.navLeft trace prevLocation = .ok p0.NavOutcome.deadlineExhausted := by
  unfold p0.navLeft
  exact navLeftGo_deadline_aux trace prevLocation hc 40000 0 10 (Nat.le_refl _)
    (by decide) (by decide)

/-- Witness for C6: a page whose location never changes makes navLeft
finish with the no-error deadline outcome. -/
theorem c6_witness :
    p0.navLeft (fun _ => Except.ok "https://photos.google.com/photo/p1")
      "https://photos.google.com/photo/p1" = .ok p0.NavOutcome.deadlineExhausted :=
  c6_ceiling_expiry_is_termination _ _ (fun _ => rfl)

/-- The sleep intervals of navLeft stay between 10 ms and the 500 ms
cap. -/
theorem backoffSeq_bounds :
    ∀ n, 10 ≤ p0.backoffSeq n ∧ p0.backoffSeq n ≤ p0.maxBackoff := by
  intro n
  induction n with
  | zero => exact ⟨Nat.le_refl _, by decide⟩
  | succ m ih =>
    show 10 ≤ p0.nextBackoff (p0.backoffSeq m) ∧ p0.nextBackoff (p0.backoffSeq m) ≤ p0.maxBackoff
    unfold p0.nextBackoff
    split
    · exact ⟨Nat.le_min.mpr ⟨by omega, by decide⟩, Nat.min_le_right _ _⟩
    · exact ih

/-- C7: the sleep intervals of navLeft's polling loop start at 10 ms,
double (clamped to the cap) on every unsuccessful poll while below the
cap and stay put once at the cap; hence the sequence is nondecreasing
and never exceeds 500 ms. -/
theorem c7_exponential_backoff :
    p0.backoffSeq 0 = 10
    ∧ (∀ n, p0.backoffSeq n < p0.maxBackoff →
        p0.backoffSeq (n + 1) = min (p0.backoffSeq n * 2) p0.maxBackoff)
    ∧ (∀ n, p0.maxBackoff ≤ p0.backoffSeq n → p0.backoffSeq (n + 1) = p0.backoffSeq n)
    ∧ (∀ n, p0.backoffSeq n ≤ p0.backoffSeq (n + 1))
    ∧ (∀ n, p0.backoffSeq n ≤ p0.maxBackoff) := by
  refine ⟨rfl, ?_, ?_, ?_, fun n => (backoffSeq_bounds n).2⟩
  · intro n h
    show p0.nextBackoff (p0.backoffSeq n) = _
    unfold p0.nextBackoff
    rw [if_pos h]
  · intro n h
    show p0.nextBackoff (p0.backoffSeq n) = _
    unfold p0.nextBackoff
    rw [if_neg (Nat.not_lt.mpr h)]
  · intro n
    show p0.backoffSeq n ≤ p0.nextBackoff (p0.backoffSeq n)
    unfold p0.nextBackoff
    split
    · exact Nat.le_min.mpr ⟨by omega, (backoffSeq_bounds n).2⟩
    · exact Nat.le_refl _

/-- Witness for C7: the second interval doubles the first, and the
sixth interval respects the cap. -/
theorem c7_witness :
    p0.backoffSeq 1 = min (p0.backoffSeq 0 * 2) p0.maxBackoff
    ∧ p0.backoffSeq 5 ≤ p0.maxBackoff :=
  ⟨c7_exponential_backoff.2.1 0 (by decide), c7_exponential_backoff.2.2.2.2 5⟩

/-- Unbounded run: with a negative N, navN's loop downloads every item
from the cursor to the boundary anchor. -/
theorem navNGo_neg (N : Int) (firstItem : String) (hN : N < 0) :
    ∀ (rest : List String) (location prevLocation : String) (n : Nat),
      location ≠ prevLocation →
      adjacentNe (location :: rest) = true →
      anchoredAtEnd firstItem (location :: rest) = true →
      navNGo N firstItem prevLocation n location rest = .ok (location :: rest) := by
  intro rest
  induction rest with
  | nil =>
    intro location prev n hne _ hanch
    have hsuf : (firstItem.data.isSuffixOf location.data) = true := hanch
    rw [navNGo, if_neg hne, if_neg (by omega), if_pos hsuf]
  | cons next rest2 ih =>
    intro location prev n hne hadj hanch
    rw [adjacentNe, Bool.and_eq_true] at hadj
    rw [anchoredAtEnd, Bool.and_eq_true, Bool.not_eq_true'] at hanch
    rw [navNGo, if_neg hne, if_neg (by omega),
      if_neg (fun h => by rw [hanch.1] at h; cases h)]
    rw [ih next location (n + 1) (fun h => bne_iff_ne.mp hadj.1 h.symm) hadj.2 hanch.2]
    rfl

/-- Bounded run: with a positive N and n items already processed, navN's
loop downloads the next N - n items (or up to the boundary anchor if
that comes first). -/
theorem navNGo_pos (N : Int) (firstItem : String) (hN : 0 < N) :
    ∀ (rest : List String) (location prevLocation : String) (n : Nat),
      (n : Int) < N →
      location ≠ prevLocation →
      adjacentNe (location :: rest) = true →
      anchoredAtEnd firstItem (location :: rest) = true →
      navNGo N firstItem prevLocation n location rest
        = .ok ((location :: rest).take (N - n).toNat) := by
  intro rest
  induction rest with
  | nil =>
    intro location prev n hn hne _ hanch
    have hsuf : (firstItem.data.isSuffixOf location.data) = true := hanch
    have htake : ([location] : List String).take (N - n).toNat = [location] :=
      List.take_of_length_le (by simp; omega)
    by_cases hbreak : N ≤ (n : Int) + 1
    · rw [navNGo, if_neg hne, if_pos ⟨hN, hbreak⟩, htake]
    · rw [navNGo, if_neg hne, if_neg (fun h => hbreak h.2), if_pos hsuf, htake]
  | cons next rest2 ih =>
    intro location prev n hn hne hadj hanch
    rw [adjacentNe, Bool.and_eq_true] at hadj
    rw [anchoredAtEnd, Bool.and_eq_true, Bool.not_eq_true'] at hanch
    by_cases hbreak : N ≤ (n : Int) + 1
    · rw [navNGo, if_neg hne, if_pos ⟨hN, hbreak⟩]
      rw [show (N - n).toNat = 1 from by omega]
      rfl
    · rw [navNGo, if_neg hne, if_neg (fun h => hbreak h.2),
        if_neg (fun h => by rw [hanch.1] at h; cases h)]
      rw [ih next location (n + 1) (by push_cast; omega)
        (fun h => bne_iff_ne.mp hadj.1 h.symm) hadj.2 hanch.2]
      rw [show (N - n).toNat = (N - (n + 1 : Nat)).toNat + 1 from by push_cast; omega,
        List.take_succ_cons]
      rfl

/-- C8: a run bounded by item count N over a feed slice of R items
(current position through boundary anchor, adjacent positions
distinct, anchor suffix only on the last) downloads exactly the first
min(N, R) items when N is nonnegative, and exactly all R items when N
is negative (unbounded). -/
theorem c8_termination_equivalence (N : Int) (firstItem location : String)
    (rest : List String) (h0 : location ≠ "")
    (hadj : adjacentNe (location :: rest) = true)
    (hanch : anchoredAtEnd firstItem (location :: rest) = true) :
    navN N firstItem location rest
      = .ok ((location :: rest).take
          (if N < 0 then (location :: rest).length else N.toNat))
    ∧ ((location :: rest).take
          (if N < 0 then (location :: rest).length else N.toNat)).length
      = if N < 0 then (location :: rest).length
        else min N.toNat (location :: rest).length := by
  constructor
  · rcases lt_trichotomy N 0 with hlt | heq | hgt
    · rw [if_pos hlt, navN, if_neg (by omega),
        navNGo_neg N firstItem hlt rest location "" 0 h0 hadj hanch,
        List.take_length]
    · subst heq
      rw [navN, if_pos rfl]
      norm_num
    · rw [if_neg (by omega), navN, if_neg (by omega)]
      rw [navNGo_pos N firstItem hgt rest location "" 0 (by push_cast; omega) h0 hadj hanch]
      norm_num
  · rcases lt_or_ge N 0 with hlt | hge
    · rw [if_pos hlt, if_pos hlt, List.take_length]
    · rw [if_neg (by omega), if_neg (by omega), List.length_take]

/-- Witness for C8: a three-item feed slice bounded by N = 2 downloads
exactly its first two items. -/
theorem c8_witness :
    navN 2 "p3" "https://photos.google.com/photo/p1"
      ["https://photos.google.com/photo/p2", "https://photos.google.com/photo/p3"]
      = .ok (["https://photos.google.com/photo/p1", "https://photos.google.com/photo/p2",
          "https://photos.google.com/photo/p3"].take (if (2 : Int) < 0 then 3 else (2 : Int).toNat))
    ∧ (["https://photos.google.com/photo/p1", "https://photos.google.com/photo/p2",
          "https://photos.google.com/photo/p3"].take
            (if (2 : Int) < 0 then 3 else (2 : Int).toNat)).length
      = if (2 : Int) < 0 then 3 else min (2 : Int).toNat 3 :=
  c8_termination_equivalence 2 "p3" "https://photos.google.com/photo/p1"
    ["https://photos.google.com/photo/p2", "https://photos.google.com/photo/p3"]
    (by decide) (by decide) (by decide)

/-- C2 counterexample: after a crash, the restarted run navigates to
the sentinel location (item N) and the navN loop downloads it again
before moving left, so "never re-downloads any of items 1..N" fails:
item N itself is re-downloaded. -/
theorem c2_counterexample :
    ¬ neverRedownloads (-1) "p3" "https://photos.google.com/photo/p2"
      ["https://photos.google.com/photo/p3"] := by
  intro h
  exact h ["https://photos.google.com/photo/p2", "https://photos.google.com/photo/p3"]
    rfl (by decide)

/-- C2 amended: a restarted run resumes at the sentinel item N itself:
it re-downloads exactly item N first, never re-downloads any of items
1..N-1 (the items older than the sentinel), and does not skip item
N+1.  `old` are the items before the sentinel in traversal order,
`newer` the items after it up to the boundary anchor. -/
theorem c2_resume_amended (N : Int) (firstItem lastDone : String)
    (old newer : List String)
    (hlast : lastDone ≠ "")
    (hadj : adjacentNe (lastDone :: newer) = true)
    (hanch : anchoredAtEnd firstItem (lastDone :: newer) = true)
    (hdisj : ∀ x ∈ old, x ∉ lastDone :: newer)
    (hN : N < 0 ∨ 2 ≤ N) :
    navN N firstItem lastDone newer
      = .ok ((lastDone :: newer).take (if N < 0 then newer.length + 1 else N.toNat))
    ∧ lastDone ∈ (lastDone :: newer).take (if N < 0 then newer.length + 1 else N.toNat)
    ∧ (∀ x ∈ old,
        x ∉ (lastDone :: newer).take (if N < 0 then newer.length + 1 else N.toNat))
    ∧ (∀ next newer2, newer = next :: newer2 →
        next ∈ (lastDone :: newer).take (if N < 0 then newer.length + 1 else N.toNat)) := by
  have hk1 : 1 ≤ (if N < 0 then newer.length + 1 else N.toNat) := by
    rcases hN with h | h
    · rw [if_pos h]; omega
    · rw [if_neg (by omega)]; omega
  refine ⟨?_, ?_, ?_, ?_⟩
  · rcases hN with hlt | hge
    · rw [if_pos hlt, List.take_of_length_le (by simp), navN, if_neg (by omega),
        navNGo_neg N firstItem hlt newer lastDone "" 0 hlast hadj hanch]
    · rw [if_neg (by omega), navN, if_neg (by omega),
        navNGo_pos N firstItem (by omega) newer lastDone "" 0 (by push_cast; omega)
          hlast hadj hanch]
      norm_num
  · rw [show (if N < 0 then newer.length + 1 else N.toNat)
        = ((if N < 0 then newer.length + 1 else N.toNat) - 1) + 1 from by omega,
      List.take_succ_cons]
    exact List.mem_cons_self _ _
  · intro x hx hmem
    exact hdisj x hx (List.take_subset _ _ hmem)
  · intro next newer2 hnew
    subst hnew
    have hk2 : 2 ≤ (if N < 0 then (next :: newer2).length + 1 else N.toNat) := by
      rcases hN with h | h
      · rw [if_pos h]; simp
      · rw [if_neg (by omega)]; omega
    rw [show (if N < 0 then (next :: newer2).length + 1 else N.toNat)
        = ((if N < 0 then (next :: newer2).length + 1 else N.toNat) - 2) + 1 + 1 from by omega,
      List.take_succ_cons, List.take_succ_cons]
    exact List.mem_cons_of_mem _ (List.mem_cons_self _ _)

/-- Witness for the amended C2 on a concrete four-item feed: the
sentinel item p2 is re-downloaded, the already-archived p1 is not, and
the next item p3 is not skipped. -/
theorem c2_witness :
    "https://photos.google.com/photo/p2" ∈
      (["https://photos.google.com/photo/p2", "https://photos.google.com/photo/p3",
        "https://photos.google.com/photo/p4"].take 3)
    ∧ "https://photos.google.com/photo/p1" ∉
      (["https://photos.google.com/photo/p2", "https://photos.google.com/photo/p3",
        "https://photos.google.com/photo/p4"].take 3)
    ∧ "https://photos.google.com/photo/p3" ∈
      (["https://photos.google.com/photo/p2", "https://photos.google.com/photo/p3",
        "https://photos.google.com/photo/p4"].take 3) := by
  have h := c2_resume_amended (-1) "p4" "https://photos.google.com/photo/p2"
    ["https://photos.google.com/photo/p1"]
    ["https://photos.google.com/photo/p3", "https://photos.google.com/photo/p4"]
    (by decide) (by decide) (by decide) (by decide) (Or.inl (by decide))
  exact ⟨h.2.1, h.2.2.1 _ (by decide), h.2.2.2 _ _ rfl⟩

/-- Unfolding of the exponential-backoff navN loop at a stalled
cursor. -/
theorem navNGoP0_stall (N : Int) (prev loc : String) (n : Nat) (rest : List String)
    (heq : loc = prev) :
    p0.navNGo N prev n loc rest = ([], []) := by
  rw [p0.navNGo, if_pos heq]

/-- Unfolding of the exponential-backoff navN loop at the bounded
break: the item is downloaded, no reload happens. -/
theorem navNGoP0_break (N : Int) (prev loc : String) (n : Nat) (rest : List String)
    (hne : loc ≠ prev) (hbr : 0 < N ∧ N ≤ (n : Int) + 1) :
    p0.navNGo N prev n loc rest = ([loc], []) := by
  rw [p0.navNGo, if_neg hne, if_pos hbr]

/-- Unfolding of the exponential-backoff navN loop at the feed
boundary: navLeft's ceiling expires without error, the reload check
still runs, and the loop stalls out on the next read. -/
theorem navNGoP0_nil (N : Int) (prev loc : String) (n : Nat)
    (hne : loc ≠ prev) (hbr : ¬ (0 < N ∧ N ≤ (n : Int) + 1)) :
    p0.navNGo N prev n loc []
      = ([loc], if (n + 1) % p0.batchSize = 0 then [n + 1] else []) := by
  rw [p0.navNGo, if_neg hne, if_neg hbr]

/-- Unfolding of the exponential-backoff navN loop in mid-feed: the
item is downloaded, navLeft advances, the reload check runs, and the
loop continues. -/
theorem navNGoP0_cons (N : Int) (prev loc next : String) (rest2 : List String) (n : Nat)
    (hne : loc ≠ prev) (hbr : ¬ (0 < N ∧ N ≤ (n : Int) + 1)) :
    p0.navNGo N prev n loc (next :: rest2)
      = (loc :: (p0.navNGo N loc (n + 1) next rest2).1,
         (if (n + 1) % p0.batchSize = 0 then [n + 1] else [])
           ++ (p0.navNGo N loc (n + 1) next rest2).2) := by
  rw [p0.navNGo, if_neg hne, if_neg hbr]

/-- Characterization of the reload points of the exponential-backoff
navN loop: starting from item count n, the loop reloads the page
exactly at the item counts that are multiples of the batch size, lie
within the items this run still processes, and are not cut off by the
bounded break (which fires before the reload check). -/
theorem navNGoP0_reload_points (N : Int) :
    ∀ (rest : List String) (location prevLocation : String) (n : Nat),
      location ≠ prevLocation →
      adjacentNe (location :: rest) = true →
      (∀ m, m ∈ (p0.navNGo N prevLocation n location rest).2 ↔
        (p0.batchSize ∣ m ∧ n + 1 ≤ m ∧
         m ≤ n + (p0.navNGo N prevLocation n location rest).1.length ∧
         ¬ (0 < N ∧ N ≤ (m : Int))))
      ∧ (p0.navNGo N prevLocation n location rest).2.Nodup := by
  intro rest
  induction rest with
  | nil =>
    intro location prev n hne _
    by_cases hbr : 0 < N ∧ N ≤ (n : Int) + 1
    · rw [navNGoP0_break N prev location n [] hne hbr]
      refine ⟨fun m => ?_, List.nodup_nil⟩
      simp only [List.not_mem_nil, false_iff, List.length_singleton]
      rintro ⟨-, h1, h2, hnot⟩
      exact hnot ⟨hbr.1, by have := hbr.2; omega⟩
    · rw [navNGoP0_nil N prev location n hne hbr]
      refine ⟨fun m => ?_, ?_⟩
      · by_cases hmod : (n + 1) % p0.batchSize = 0
        · rw [if_pos hmod]
          simp only [List.mem_singleton, List.length_singleton]
          constructor
          · rintro rfl
            exact ⟨Nat.dvd_of_mod_eq_zero hmod, Nat.le_refl _, Nat.le_refl _,
              fun h => hbr ⟨h.1, by have := h.2; omega⟩⟩
          · rintro ⟨-, h1, h2, -⟩
            omega
        · rw [if_neg hmod]
          simp only [List.not_mem_nil, false_iff, List.length_singleton]
          rintro ⟨hdvd, h1, h2, -⟩
          have hm : m = n + 1 := by omega
          subst hm
          exact hmod (Nat.mod_eq_zero_of_dvd hdvd)
      · by_cases hmod : (n + 1) % p0.batchSize = 0
        · rw [if_pos hmod]; exact List.nodup_singleton _
        · rw [if_neg hmod]; exact List.nodup_nil
  | cons next rest2 ih =>
    intro location prev n hne hadj
    rw [adjacentNe, Bool.and_eq_true] at hadj
    have hne2 : next ≠ location := fun h => bne_iff_ne.mp hadj.1 h.symm
    by_cases hbr : 0 < N ∧ N ≤ (n : Int) + 1
    · rw [navNGoP0_break N prev location n _ hne hbr]
      refine ⟨fun m => ?_, List.nodup_nil⟩
      simp only [List.not_mem_nil, false_iff, List.length_singleton]
      rintro ⟨-, h1, h2, hnot⟩
      exact hnot ⟨hbr.1, by have := hbr.2; omega⟩
    · rw [navNGoP0_cons N prev location next rest2 n hne hbr]
      obtain ⟨iff2, nodup2⟩ := ih next location (n + 1) hne2 hadj.2
      have hlow : ∀ m, m ∈ (p0.navNGo N location (n + 1) next rest2).2 → n + 2 ≤ m :=
        fun m hm => ((iff2 m).mp hm).2.1
      constructor
      · intro m
        rw [List.mem_append]
        simp only [List.length_cons]
        constructor
        · rintro (hm | hm)
          · by_cases hmod : (n + 1) % p0.batchSize = 0
            · rw [if_pos hmod] at hm
              simp only [List.mem_singleton] at hm
              subst hm
              exact ⟨Nat.dvd_of_mod_eq_zero hmod, Nat.le_refl _, by omega,
                fun h => hbr ⟨h.1, by have := h.2; omega⟩⟩
            · rw [if_neg hmod] at hm
              cases hm
          · obtain ⟨hdvd, h1, h2, h3⟩ := (iff2 m).mp hm
            exact ⟨hdvd, by omega, by omega, h3⟩
        · rintro ⟨hdvd, h1, h2, h3⟩
          by_cases hm1 : m = n + 1
          · left
            subst hm1
            rw [if_pos (Nat.mod_eq_zero_of_dvd hdvd)]
            exact List.mem_singleton_self _
          · right
            exact (iff2 m).mpr ⟨hdvd, by omega, by omega, h3⟩
      · refine List.Nodup.append ?_ nodup2 ?_
        · by_cases hmod : (n + 1) % p0.batchSize = 0
          · rw [if_pos hmod]; exact List.nodup_singleton _
          · rw [if_neg hmod]; exact List.nodup_nil
        · intro a ha ha2
          have h2 := hlow a ha2
          by_cases hmod : (n + 1) % p0.batchSize = 0
          · rw [if_pos hmod] at ha
            simp only [List.mem_singleton] at ha
            omega
          · rw [if_neg hmod] at ha
            cases ha

/-- C9: in the exponential-backoff variant, the iteration loop reloads
the page exactly once at every multiple of the 1000-item batch size
that the run's processed-item count reaches before stopping (the
bounded break at N items fires before the reload check), and at no
other point. -/
theorem c9_reload_every_batch (N : Int) (location : String) (rest : List String)
    (h0 : location ≠ "") (hadj : adjacentNe (location :: rest) = true) (hN : N ≠ 0) :
    (∀ m, m ∈ (p0.navN N location rest).2 ↔
      (p0.batchSize ∣ m ∧ 1 ≤ m ∧ m ≤ (p0.navN N location rest).1.length ∧
       ¬ (0 < N ∧ N ≤ (m : Int))))
    ∧ (p0.navN N location rest).2.Nodup := by
  rw [p0.navN, if_neg hN]
  have h := navNGoP0_reload_points N rest location "" 0 h0 hadj
  simpa using h

/-- Witness for C9 on a concrete two-item unbounded run: item count 1
is not a reload point (1000 does not divide it). -/
theorem c9_witness :
    (1 ∈ (p0.navN (-1) "https://photos.google.com/photo/p1"
        ["https://photos.google.com/photo/p2"]).2 ↔
      (p0.batchSize ∣ 1 ∧ 1 ≤ 1 ∧
       1 ≤ (p0.navN (-1) "https://photos.google.com/photo/p1"
          ["https://photos.google.com/photo/p2"]).1.length ∧
       ¬ (0 < (-1 : Int) ∧ (-1 : Int) ≤ (1 : Nat)))) :=
  (c9_reload_every_batch (-1) "https://photos.google.com/photo/p1"
    ["https://photos.google.com/photo/p2"] (by decide) (by decide) (by decide)).1 1

/-- A sentinel event inside one item's dlAndMove effects names that
item. -/
theorem sentinel_mem_dlAndMove (y x : String) (h : Ev.sentinel y ∈ dlAndMoveEvents x) :
    y = x := by
  simpa [dlAndMoveEvents, downloadEvents, moveDownloadEvents] using h

/-- Membership in a shorter prefix carries over to a longer one. -/
theorem mem_take_mono {α : Type} (l : List α) (a : α) {m n : Nat} (hmn : m ≤ n)
    (h : a ∈ l.take m) : a ∈ l.take n := by
  have he : l.take m = (l.take n).take m := by
    rw [List.take_take, Nat.min_eq_left hmn]
  rw [he] at h
  exact List.take_subset _ _ h

/-- C1 counterexample: for a concrete item, dlAndMove writes the
sentinel (markDone, at the end of download) strictly before
moveDownload relocates the artifact, so the sentinel is not created
only after relocation. -/
theorem c1_counterexample :
    ¬ sentinelAfterRelocation "https://photos.google.com/photo/p1" := by
  unfold sentinelAfterRelocation
  decide

/-- C1 amended: the sentinel is created or updated only after the
download is fully verified complete, but before (not after) the
artifact is relocated; consequently, any crash prefix of the run that
contains an item's sentinel write contains the relocation of every
item strictly before it in traversal order (while the sentinel item
itself may not be relocated yet). -/
theorem c1_sentinel_checkpoint_amended :
    (∀ location,
      Ev.downloaded location ∈ (dlAndMoveEvents location).take 1
      ∧ Ev.sentinel location ∈ (dlAndMoveEvents location).take 2
      ∧ Ev.sentinel location ∉ (dlAndMoveEvents location).take 1
      ∧ Ev.moved location ∉ (dlAndMoveEvents location).take 2
      ∧ Ev.moved location ∈ dlAndMoveEvents location)
    ∧ (∀ (pre post : List String) (y : String) (k : Nat),
      (pre ++ y :: post).Nodup →
      Ev.sentinel y ∈ (navNEvents (pre ++ y :: post)).take k →
      ∀ x ∈ pre, Ev.moved x ∈ (navNEvents (pre ++ y :: post)).take k) := by
  constructor
  · intro location
    refine ⟨?_, ?_, ?_, ?_, ?_⟩ <;>
      simp [dlAndMoveEvents, downloadEvents, moveDownloadEvents, List.take]
  · intro pre post y k hnodup hsent x hx
    have hsplit : navNEvents (pre ++ y :: post)
        = navNEvents pre
          ++ (Ev.downloaded y :: Ev.sentinel y :: Ev.moved y :: navNEvents post) := by
      rw [navNEvents, List.flatMap_append, List.flatMap_cons]
      rfl
    have hynotpre : y ∉ pre := by
      have hd := List.disjoint_of_nodup_append hnodup
      exact fun hy => hd hy (List.mem_cons_self y post)
    have hk : (navNEvents pre).length + 2 ≤ k := by
      by_contra hlt
      push_neg at hlt
      have hsub : Ev.sentinel y
          ∈ (navNEvents (pre ++ y :: post)).take ((navNEvents pre).length + 1) :=
        mem_take_mono _ _ (by omega) hsent
      rw [hsplit, List.take_append_eq_append_take,
        List.take_of_length_le (by omega),
        show (navNEvents pre).length + 1 - (navNEvents pre).length = 1 from by omega,
        show (Ev.downloaded y :: Ev.sentinel y :: Ev.moved y :: navNEvents post).take 1
          = [Ev.downloaded y] from rfl] at hsub
      rcases List.mem_append.mp hsub with hA | hD
      · obtain ⟨x2, hx2, he⟩ := List.mem_flatMap.mp hA
        exact hynotpre ((sentinel_mem_dlAndMove y x2 he) ▸ hx2)
      · simp at hD
    have hxmem : Ev.moved x ∈ navNEvents pre :=
      List.mem_flatMap.mpr
        ⟨x, hx, by simp [dlAndMoveEvents, downloadEvents, moveDownloadEvents]⟩
    rw [hsplit, List.take_append_eq_append_take, List.take_of_length_le (by omega)]
    exact List.mem_append_left _ hxmem

/-- Witness for the amended C1: in a concrete three-item run, a crash
prefix that contains the second item's sentinel write already contains
the relocation of the first item. -/
theorem c1_witness :
    Ev.moved "https://photos.google.com/photo/pA"
      ∈ (navNEvents ["https://photos.google.com/photo/pA",
          "https://photos.google.com/photo/pB",
          "https://photos.google.com/photo/pC"]).take 5 :=
  c1_sentinel_checkpoint_amended.2 ["https://photos.google.com/photo/pA"]
    ["https://photos.google.com/photo/pC"] "https://photos.google.com/photo/pB" 5
    (by decide) (by decide) "https://photos.google.com/photo/pA" (by decide)
